import Mathlib

/-
Verification of the agol-validator repository (src/checks.py, src/validate.py,
src/__main__.py) against its natural-language specification.

Python strings are embedded as lists of Unicode code points (`Str := List Nat`),
so Python string operations (split, strip, title, upper, lower, substring
membership, lexicographic sorting) become executable Lean functions on these
lists.  The relevant character operations of Python (`str.upper`, `str.lower`,
`str.title`, `str.isalpha`) agree with the ASCII-range definitions below on all
inputs appearing in the repository (tags, titles, group names are ASCII).
-/

namespace Agol

/-- A Python string, embedded as its sequence of code points. -/
abbrev Str := List Nat

/-- Code points of a Lean string literal, used to write concrete Python strings. -/
def strN (s : String) : Str := s.data.map Char.toNat

/-- Python `str.split()` whitespace: space, tab, newline, carriage return,
form feed, vertical tab. -/
def pyIsSpace (c : Nat) : Bool := c = 32 || c = 9 || c = 10 || c = 13 || c = 12 || c = 11

/-- ASCII lowercase letter test. -/
def isLowerChar (c : Nat) : Bool := 97 ≤ c && c ≤ 122

/-- ASCII uppercase letter test. -/
def isUpperChar (c : Nat) : Bool := 65 ≤ c && c ≤ 90

/-- ASCII letter test, modelling Python `str.isalpha` on the ASCII range. -/
def pyIsAlpha (c : Nat) : Bool := isUpperChar c || isLowerChar c

/-- Character uppercasing, modelling Python `str.upper` per character. -/
def upperChar (c : Nat) : Nat := if isLowerChar c then c - 32 else c

/-- Character lowercasing, modelling Python `str.lower` per character. -/
def lowerChar (c : Nat) : Nat := if isUpperChar c then c + 32 else c

/-- Python `str.upper`. -/
def strUpper (s : Str) : Str := s.map upperChar

/-- Python `str.lower`. -/
def strLower (s : Str) : Str := s.map lowerChar

/-- Helper for `pyTitle`: the Boolean argument records whether the previous
character was alphabetic.  Python `str.title` uppercases a cased character that
follows a non-cased character and lowercases the rest. -/
def pyTitleAux : Bool → Str → Str
  | _, [] => []
  | prevAlpha, c :: cs =>
    if pyIsAlpha c then
      (if prevAlpha then lowerChar c else upperChar c) :: pyTitleAux true cs
    else
      c :: pyTitleAux false cs

/-- Python `str.title`. -/
def pyTitle (s : Str) : Str := pyTitleAux false s

/-- Helper for `pySplit`: splits at every character satisfying `p`; the
accumulator holds the current word reversed. -/
def splitAux (p : Nat → Bool) : Str → Str → List Str
  | [], acc => [acc.reverse]
  | c :: cs, acc => if p c then acc.reverse :: splitAux p cs [] else splitAux p cs (c :: acc)

/-- Python `str.split()` with no argument: split on whitespace runs, dropping
empty words. -/
def pySplit (s : Str) : List Str := (splitAux pyIsSpace s []).filter (fun w => !w.isEmpty)

/-- Python `sep.join(words)`. -/
def joinWith (sep : Str) : List Str → Str
  | [] => []
  | [w] => w
  | w :: ws => w ++ sep ++ joinWith sep ws

/-- Python `str.strip()`: remove leading and trailing whitespace. -/
def pyStrip (s : Str) : Str := ((s.dropWhile pyIsSpace).reverse.dropWhile pyIsSpace).reverse

/-- Python substring membership `needle in hay` on strings. -/
def isSubstr (n : Str) : Str → Bool
  | [] => n.isEmpty
  | c :: cs => n.isPrefixOf (c :: cs) || isSubstr n cs

/-- Lexicographic comparison of Python strings by code point, as used by
Python `sorted` on lists of strings. -/
def strLe : Str → Str → Bool
  | [], _ => true
  | _ :: _, [] => false
  | a :: as, b :: bs => if a < b then true else if b < a then false else strLe as bs

/-- Insertion into a `strLe`-sorted list. -/
def insertSorted (x : Str) : List Str → List Str
  | [] => [x]
  | y :: ys => if strLe x y then x :: y :: ys else y :: insertSorted x ys

/-- Python `sorted` on a list of strings (insertion sort; the total order
`strLe` makes the result depend only on the multiset of elements, which is
all the source uses: it only ever compares `sorted(a)` with `sorted(b)`). -/
def pySorted (l : List Str) : List Str := l.foldr insertSorted []

/-- Python `word.replace(".", "")`: drop every period (code point 46). -/
def removeDots (w : Str) : Str := w.filter (fun c => c != 46)

/-- Splits off the part of `s` before the first occurrence of `sep` together
with the rest after it, or `none` when `sep` does not occur.  Helper for the
Python `str.split(sep)` with an explicit separator. -/
def splitFirst (sep : Str) : Str → Option (Str × Str)
  | [] => if sep.isEmpty then some ([], []) else none
  | c :: cs =>
    if sep.isPrefixOf (c :: cs) then some ([], (c :: cs).drop sep.length)
    else (splitFirst sep cs).map (fun p => (c :: p.1, p.2))

/-- Fuel-driven worker for `splitOnStr`; the fuel `s.length + 1` always
suffices because each separator occurrence consumes at least one character. -/
def splitOnStrAux (sep : Str) : Nat → Str → List Str
  | 0, s => [s]
  | n + 1, s =>
    match splitFirst sep s with
    | none => [s]
    | some (a, b) => a :: splitOnStrAux sep n b

/-- Python `s.split(sep)` with a non-empty separator string. -/
def splitOnStr (sep s : Str) : List Str := splitOnStrAux sep (s.length + 1) s

/-! ## checks.py lines 4-36: tag_case -/

/-- Per-word body of the loop in `tag_case` (checks.py lines 23-34): strip
periods, then uppercase, lowercase or title-case the cleaned word according to
the two word lists. -/
def caseWord (uppercased arts : List Str) (w : Str) : Str :=
  let cleaned := removeDots w
  if strLower cleaned ∈ uppercased then strUpper cleaned
  else if strLower cleaned ∈ arts then strLower cleaned
  else pyTitle cleaned

/-- checks.py lines 4-36, `tag_case(tag, uppercased, articles)`: split the tag
on whitespace, case each word via `caseWord`, join with single spaces. -/
def tag_case (tag : Str) (uppercased arts : List Str) : Str :=
  joinWith [32] ((pySplit tag).map (caseWord uppercased arts))

/-! ## validate.py lines 47-54: the fixed word lists of the validator class -/

/-- validate.py line 48, `validator.uppercased_tags`. -/
def uppercased_tags : List Str :=
  [strN "2g", strN "3g", strN "4g", strN "agrc", strN "aog", strN "at&t", strN "blm",
   strN "brat", strN "caf", strN "cdl", strN "daq", strN "dfcm", strN "dfirm",
   strN "dwq", strN "e911", strN "ems", strN "fae", strN "fcc", strN "fema",
   strN "gcdb", strN "gis", strN "gnis", strN "hava", strN "huc", strN "lir",
   strN "lrs", strN "lte", strN "luca", strN "mrrc", strN "nca", strN "ng911",
   strN "nox", strN "npsbn", strN "ntia", strN "nwi", strN "plss", strN "pm10",
   strN "psap", strN "sbdc", strN "sbi", strN "sgid", strN "sitla", strN "sligp",
   strN "trax", strN "uca", strN "udot", strN "ugs", strN "uhp", strN "uic",
   strN "us", strN "usdw", strN "usfs", strN "usfws", strN "usps", strN "ustc",
   strN "ut", strN "uta", strN "vcp", strN "vista", strN "voc"]

/-- validate.py line 51, `validator.articles`. -/
def articles : List Str := [strN "a", strN "the", strN "of", strN "is", strN "in"]

/-- validate.py line 54, `validator.tags_to_delete`. -/
def tags_to_delete : List Str := [strN ".sd", strN "service definition"]

/-! ## Data model -/

/-- A Python value that is either a string or a list of strings or None; the
check results of the source store values of all three shapes in the same
fields (for example `old_groups` holds a list on the fix branch and the empty
string on the no-fix branch). -/
inductive PyVal where
  | str : Str → PyVal
  | list : List Str → PyVal
  | pyNone : PyVal
deriving DecidableEq, Repr

/-- Emptiness of a stored value: the empty string, the empty list, or None. -/
def PyVal.isEmptyVal : PyVal → Bool
  | .str s => s.isEmpty
  | .list l => l.isEmpty
  | .pyNone => true

/-- Snapshot of a remote AGOL item as read by the source.  `groupsFetch`
models `item.shared_with` access: `none` when the lookup raises (the source
wraps it in try and except), `some gs` the list of group titles.  `capsFetch`
models the feature-layer manager properties fetch of `downloads_check`:
`none` when it raises, `some caps` the capabilities string. -/
structure RItem where
  itemid : Str
  title : Str
  tags : List Str
  groupsFetch : Option (List Str)
  protectedFlag : Bool
  capsFetch : Option Str
deriving DecidableEq, Repr

/-- The metatable dictionary of validate.py lines 43-45 and 79-82:
itemid maps to the pair (TABLENAME, AGOL_PUBLISHED_NAME). -/
abbrev Metatable := List (Str × Str × Str)

/-- Dictionary lookup by first component, modelling `metatable_dict` access. -/
def lookupMeta : Metatable → Str → Option (Str × Str)
  | [], _ => none
  | (k, v) :: rest, key => if k = key then some v else lookupMeta rest key

/-- The itemid-to-folder dictionary of validate.py line 41; a folder of
`none` is the root folder (validate.py line 64). -/
abbrev FolderMap := List (Str × Option Str)

/-- Dictionary lookup in the folder map. -/
def lookupFolder : FolderMap → Str → Option (Option Str)
  | [], _ => none
  | (k, v) :: rest, key => if k = key then some v else lookupFolder rest key

/-- checks.py line 209/179 and validate.py: `SGID_name.split(".")[1].title()`,
the SGID category of a dotted table name.  Python raises IndexError when the
name has no period; no metatable name in scope of the claims does, and the
default `[]` is never reached on the inputs of the theorems below. -/
def categoryOf (sgidName : Str) : Str := pyTitle ((splitOnStr (strN ".") sgidName).getD 1 [])

/-- checks.py line 119, `group.split("Utah SGID ")[-1]`: the last component of
the split on the literal separator. -/
def categoryFromGroup (g : Str) : Str := (splitOnStr (strN "Utah SGID ") g).getLastD []

/-! ## checks.py lines 39-138: tags_check -/

/-- The per-tag loop of `tags_check` (checks.py lines 66-106).  The first list
argument is the remaining original tags, the second the accumulated good tags
(`new_tags`).  Each branch mirrors one branch of the source loop in order:
the Utah rule (line 94), the delete list (line 97), redundancy with the title
(line 100), and the properly-cased append with duplicate check (lines 103-106).
-/
def processTagsLoop (title : Str) (dels uppercased arts : List Str) : List Str → List Str → List Str
  | [], acc => acc
  | t :: rest, acc =>
    let titleWords := pySplit title
    let singleWordInTitle := t ∈ titleWords
    let multiWordInTitle := (32 : Nat) ∈ t ∧ isSubstr t title = true
    let lt := strLower t
    if lt = strN "utah" ∧ t ∉ titleWords then
      processTagsLoop title dels uppercased arts rest (acc ++ [strN "Utah"])
    else if lt ∈ dels then
      processTagsLoop title dels uppercased arts rest acc
    else if singleWordInTitle ∨ multiWordInTitle then
      processTagsLoop title dels uppercased arts rest acc
    else
      let cased := tag_case t uppercased arts
      if cased ∈ acc then processTagsLoop title dels uppercased arts rest acc
      else processTagsLoop title dels uppercased arts rest (acc ++ [cased])

/-- The category-tag loop of `tags_check` (checks.py lines 117-130): for every
group whose title contains "Utah SGID", splice in the category tag (replacing
a lowercase duplicate, Python `list.remove` drops the first occurrence) and
ensure the SGID and AGRC tags are present. -/
def addCategoryTagsLoop : List Str → List Str → List Str
  | [], acc => acc
  | g :: gs, acc =>
    if isSubstr (strN "Utah SGID") g = true then
      let category := categoryFromGroup g
      let acc1 :=
        if strLower category ∈ acc then (acc.erase (strLower category)) ++ [category]
        else if category ∉ acc then acc ++ [category]
        else acc
      let acc2 := if strN "SGID" ∉ acc1 then acc1 ++ [strN "SGID"] else acc1
      let acc3 := if strN "AGRC" ∉ acc2 then acc2 ++ [strN "AGRC"] else acc2
      addCategoryTagsLoop gs acc3
    else
      addCategoryTagsLoop gs acc

/-- The title used by `tags_check` (checks.py lines 50-54): the `new_title`
argument when truthy, the item title otherwise. -/
def tagsCheckTitle (item : RItem) : Option Str → Str
  | some t => if t.isEmpty then item.title else t
  | none => item.title

/-- The `new_tags` value computed by `tags_check` (checks.py lines 59-130):
strip the original tags, run the per-tag loop, then the category loop over the
fetched groups (an empty list when the group fetch raised, lines 108-115). -/
def reconciled_tags (item : RItem) (dels uppercased arts : List Str) (new_title : Option Str) : List Str :=
  addCategoryTagsLoop (item.groupsFetch.getD [])
    (processTagsLoop (tagsCheckTitle item new_title) dels uppercased arts (item.tags.map pyStrip) [])

/-- Result dictionary of `tags_check` (checks.py lines 132-138). -/
structure TagsData where
  fix_tags : Bool
  old_tags : PyVal
  new_tags : PyVal
deriving DecidableEq, Repr

/-- checks.py lines 39-138, `tags_check(item, tags_to_delete, uppercased_tags,
articles, new_title)` together with the local list `failed_group_items`
(lines 56-57 and 115), which the source builds but discards on return; it is
exposed here as the second component so its content can be specified.  The
fix flag `true` embeds the string value "Y" of the source, `false` embeds
"N". -/
def tags_check_full (item : RItem) (dels uppercased arts : List Str) (new_title : Option Str) :
    TagsData × List Str :=
  let failed_group_items : List Str :=
    match item.groupsFetch with
    | none => [item.title]
    | some _ => []
  let new_tags := reconciled_tags item dels uppercased arts new_title
  let tags_data :=
    if pySorted new_tags ≠ pySorted item.tags then
      { fix_tags := true, old_tags := PyVal.list item.tags, new_tags := PyVal.list new_tags }
    else
      { fix_tags := false, old_tags := PyVal.str [], new_tags := PyVal.str [] }
  (tags_data, failed_group_items)

/-- The return value of checks.py `tags_check` (the dictionary only). -/
def tags_check (item : RItem) (dels uppercased arts : List Str) (new_title : Option Str) : TagsData :=
  (tags_check_full item dels uppercased arts new_title).1

/-! ## checks.py lines 141-263: the other checkers -/

/-- Result dictionary of `title_check` (checks.py lines 155-160). -/
structure TitleData where
  fix_title : Bool
  old_title : Str
  new_title : Str
deriving DecidableEq, Repr

/-- checks.py lines 141-162, `title_check(item, metatable_dict)`. -/
def title_check (item : RItem) (metatable : Metatable) : TitleData :=
  let table_agol_title : Option Str :=
    match lookupMeta metatable item.itemid with
    | some (_, agolName) => some agolName
    | none => none
  match table_agol_title with
  | some t =>
    if ¬ t.isEmpty ∧ t ≠ item.title then
      { fix_title := true, old_title := item.title, new_title := t }
    else
      { fix_title := false, old_title := [], new_title := [] }
  | none => { fix_title := false, old_title := [], new_title := [] }

/-- Result dictionary of `folder_check` (checks.py lines 183-187).  The old
folder on the fix branch is the current folder, which may be None (root). -/
structure FolderData where
  fix_folder : Bool
  old_folder : PyVal
  new_folder : Str
deriving DecidableEq, Repr

/-- Python inequality between a desired folder string and the current folder,
which is a string or None; `x != None` is true for every string `x`. -/
def folderNe (tableFolder : Str) : Option Str → Prop
  | some cf => tableFolder ≠ cf
  | none => True

instance (tf : Str) (cf : Option Str) : Decidable (folderNe tf cf) := by
  cases cf <;> simp [folderNe] <;> infer_instance

/-- checks.py lines 165-189, `folder_check(item, metatable_dict,
itemid_and_folder)`.  The result is `none` when the folder-map lookup at line
174 raises KeyError; the validator populates the map for every enumerated
item, so the callers always hit the `some` case. -/
def folder_check (item : RItem) (metatable : Metatable) (folders : FolderMap) : Option FolderData :=
  match lookupFolder folders item.itemid with
  | none => none
  | some current_folder =>
    let table_folder : Option Str :=
      match lookupMeta metatable item.itemid with
      | some (sgidName, _) => some (categoryOf sgidName)
      | none => none
    some (match table_folder with
      | some tf =>
        if ¬ tf.isEmpty ∧ folderNe tf current_folder then
          { fix_folder := true,
            old_folder := match current_folder with
              | some cf => PyVal.str cf
              | none => PyVal.pyNone,
            new_folder := tf }
        else
          { fix_folder := false, old_folder := PyVal.str [], new_folder := [] }
      | none => { fix_folder := false, old_folder := PyVal.str [], new_folder := [] })

/-- Result of `groups_check` (checks.py lines 214-222).  On the (unreachable)
sentinel branch the source returns a bare list instead of a dictionary; the
record embeds its three positional entries in the same fields. -/
structure GroupsData where
  fix_groups : Bool
  old_groups : PyVal
  new_group : Str
deriving DecidableEq, Repr

/-- Python equality between a list of strings and a string: values of
different types never compare equal, so the comparison
`current_groups == "Error"` at checks.py line 215 (and validate.py line 152)
is always false. -/
def pyEqListStr (_ : List Str) (_ : Str) : Bool := false

/-- The string "Error", the sentinel stored as sole group when the group
fetch raises (checks.py line 204). -/
def errorStr : Str := strN "Error"

/-- The string of the dead sentinel branch of `groups_check` (checks.py line
216), "Can" ++ apostrophe ++ "t get group". -/
def cantGetGroup : Str := strN "Can" ++ 39 :: strN "t get group"

/-- checks.py lines 192-222, `groups_check(item, metatable_dict)`: fetch the
current group titles (the list `["Error"]` when the fetch raises, lines
200-204), derive the desired group "Utah SGID {Category}" from the metatable
(lines 206-212), then compare (lines 214-222).  The branch guarded by
`pyEqListStr` is the literal line 215 comparison of a list against a string,
which Python evaluates to False, leaving that sentinel branch unreachable. -/
def groups_check (item : RItem) (metatable : Metatable) : GroupsData :=
  let current_groups : List Str :=
    match item.groupsFetch with
    | some gs => gs
    | none => [errorStr]
  let group : Option Str :=
    match lookupMeta metatable item.itemid with
    | some (sgidName, _) => some (strN "Utah SGID " ++ categoryOf sgidName)
    | none => none
  if pyEqListStr current_groups errorStr then
    { fix_groups := false, old_groups := PyVal.str cantGetGroup, new_group := [] }
  else
    match group with
    | some g =>
      if ¬ g.isEmpty ∧ g ∉ current_groups then
        { fix_groups := true, old_groups := PyVal.list current_groups, new_group := g }
      else
        { fix_groups := false, old_groups := PyVal.str [], new_group := [] }
    | none => { fix_groups := false, old_groups := PyVal.str [], new_group := [] }

/-- checks.py lines 225-246, `downloads_check(item)`: fix wanted exactly when
the capability fetch succeeded and the capabilities string does not contain
"Extract". -/
def downloads_check (item : RItem) : Bool :=
  match item.capsFetch with
  | some caps => if isSubstr (strN "Extract") caps = false then true else false
  | none => false

/-- checks.py lines 249-263, `delete_protection_check(item)`: fix wanted
exactly when the protected flag is off. -/
def delete_protection_check (item : RItem) : Bool :=
  if ¬ item.protectedFlag then true else false

/-! ## validate.py lines 85-201: check_items -/

/-- Modelled from the spec: `checks.check_tags(item, tags_to_delete,
uppercased_tags, articles)` is called at validate.py line 124 but is not
defined anywhere under src/checks.py.  Spec section 4.2 specifies the tag
reconciler that this call denotes; its steps coincide with the tag pipeline
of `tags_check` (trim, per-tag loop, category-tag synthesis from groups,
groups treated as empty when the fetch fails), so the reconciled tag list is
used as its value. -/
def check_tags (item : RItem) (dels uppercased arts : List Str) : List Str :=
  reconciled_tags item dels uppercased arts none

/-- Modelled from the spec: `checks.get_category_and_name(item,
metatable_dict)` is called at validate.py line 127 but is not defined under
src/checks.py.  Per spec sections 3 and 4.3 it yields the desired title
(the published name from the catalog), the desired group
"Utah SGID {Category}" and the desired folder (the category), and an item
absent from the catalog is marked by the title "Not SGID", the sentinel that
validate.py line 137 tests. -/
def get_category_and_name (item : RItem) (metatable : Metatable) : Str × Str × Str :=
  match lookupMeta metatable item.itemid with
  | some (sgidName, agolName) =>
    (agolName, strN "Utah SGID " ++ categoryOf sgidName, categoryOf sgidName)
  | none => (strN "Not SGID", [], [])

/-- One row of the pandas report of `check_items` (validate.py lines 106-114).
Every cell starts out unset (`none`, the NaN of the empty dataframe) and a
`report.loc` assignment stores a value. -/
structure ReportRow where
  fix_title : Option PyVal := none
  old_title : Option PyVal := none
  new_title : Option PyVal := none
  fix_groups : Option PyVal := none
  old_groups : Option PyVal := none
  new_group : Option PyVal := none
  fix_folder : Option PyVal := none
  old_folder : Option PyVal := none
  new_folder : Option PyVal := none
  fix_tags : Option PyVal := none
  old_tags : Option PyVal := none
  new_tags : Option PyVal := none
  fix_downloads : Option PyVal := none
  fix_delete_protection : Option PyVal := none
deriving DecidableEq, Repr

/-- The string "Y". -/
def yStr : Str := strN "Y"

/-- The string "N". -/
def nStr : Str := strN "N"

/-- The per-item body of `check_items` (validate.py lines 116-197), producing
the report row of one item.  `current_folder` is the folder recorded for the
item at enumeration time (validate.py line 74 inserts every enumerated item
into `itemid_and_folder`, so the lookup at line 162 always succeeds and is
modelled by passing the folder alongside the item).

Two faithful oddities of the source are preserved:
* line 152 compares the list `current_groups` against the string "Error"
  (`pyEqListStr`, always false), so a failed group fetch flows into the
  ordinary comparison with `["Error"]` as the current groups;
* line 158 lists the group columns as `["fix_tags", "old_groups",
  "new_group"]`, so the groups Y/N flag is written into the `fix_tags` column
  (overwritten later by the tags check at line 176) and the `fix_groups`
  column is never assigned. -/
def check_row (item : RItem) (current_folder : Option Str) (metatable : Metatable) : ReportRow :=
  let tags := check_tags item tags_to_delete uppercased_tags articles
  let tgf := get_category_and_name item metatable
  let title := tgf.1
  let group := tgf.2.1
  let folder := tgf.2.2
  let titleData : Str × Str × Str :=
    if title ≠ item.title then (yStr, item.title, title) else (nStr, item.title, [])
  let current_groups : List Str :=
    match item.groupsFetch with
    | some gs => gs
    | none => [errorStr]
  let groupsData : Str × Str × Str :=
    if pyEqListStr current_groups errorStr then (nStr, cantGetGroup, [])
    else if group ∉ current_groups then (yStr, joinWith (strN "; ") current_groups, group)
    else (nStr, [], [])
  let folderData : Str × PyVal × Str :=
    if folderNe folder current_folder then
      (yStr, (match current_folder with | some cf => PyVal.str cf | none => PyVal.pyNone), folder)
    else (nStr, PyVal.str [], [])
  let tagsData : Str × Str × Str :=
    if pySorted tags ≠ pySorted item.tags then
      (yStr, joinWith (strN "; ") item.tags, joinWith (strN "; ") tags)
    else (nStr, [], [])
  let downloadsFlag : Str :=
    match item.capsFetch with
    | some caps => if isSubstr (strN "Extract") caps = false then yStr else nStr
    | none => nStr
  let protectFlag : Str := if ¬ item.protectedFlag then yStr else nStr
  if title ≠ strN "Not SGID" then
    { fix_title := some (PyVal.str titleData.1),
      old_title := some (PyVal.str titleData.2.1),
      new_title := some (PyVal.str titleData.2.2),
      fix_groups := none,
      old_groups := some (PyVal.str groupsData.2.1),
      new_group := some (PyVal.str groupsData.2.2),
      fix_folder := some (PyVal.str folderData.1),
      old_folder := some folderData.2.1,
      new_folder := some (PyVal.str folderData.2.2),
      fix_tags := some (PyVal.str tagsData.1),
      old_tags := some (PyVal.str tagsData.2.1),
      new_tags := some (PyVal.str tagsData.2.2),
      fix_downloads := some (PyVal.str downloadsFlag),
      fix_delete_protection := some (PyVal.str protectFlag) }
  else
    { fix_tags := some (PyVal.str tagsData.1),
      old_tags := some (PyVal.str tagsData.2.1),
      new_tags := some (PyVal.str tagsData.2.2),
      fix_downloads := some (PyVal.str downloadsFlag),
      fix_delete_protection := some (PyVal.str protectFlag) }

/-- validate.py lines 85-201, `check_items`: one report row per enumerated
item, keyed by itemid (line 107 and line 114 build the index from the item
list, line 116 loops over the same list). -/
def check_items (items : List (RItem × Option Str)) (metatable : Metatable) :
    List (Str × ReportRow) :=
  items.map (fun p => (p.1.itemid, check_row p.1 p.2 metatable))

/-! ## validate.py lines 204-240: fix_items -/

/-- A Python subscription key: an integer or a string. -/
inductive PyKey where
  | int : Int → PyKey
  | str : Str → PyKey
deriving DecidableEq, Repr

/-- The TypeError message Python raises for `somelist[somestring]`. -/
def listStrIndexTypeError : Str := strN "TypeError: list indices must be integers or slices, not str"

/-- The IndexError message Python raises for an out-of-range list index. -/
def listIndexRangeError : Str := strN "IndexError: list index out of range"

/-- Python `items[key]` on a list: integer keys index by position (negative
keys count from the end), string keys raise TypeError. -/
def pyListGetItem (items : List RItem) : PyKey → Except Str RItem
  | .int i =>
    let n : Int := items.length
    let j : Int := if i < 0 then i + n else i
    if j < 0 then .error listIndexRangeError
    else
      match items.get? j.toNat with
      | some it => .ok it
      | none => .error listIndexRangeError
  | .str _ => .error listStrIndexTypeError

/-- validate.py line 210, `item = self.feature_service_items[itemid]` inside
`fix_items`: the loop variable `itemid` ranges over the keys of
`report.to_dict("index")` (line 207-209), which are the dataframe index
labels, i.e. the itemid strings of the report rows (line 107/114), and
`feature_service_items` (line 38) is a plain list filled positionally at
enumeration time (line 73). -/
def fix_items_item_lookup (items : List RItem) (itemid : Str) : Except Str RItem :=
  pyListGetItem items (PyKey.str itemid)

/-! ## Concrete inputs used by the claim theorems -/

/-- A catalogued item whose group-membership fetch fails. -/
def itemC1 : RItem :=
  { itemid := strN "id1", title := strN "Utah Counties", tags := [],
    groupsFetch := none, protectedFlag := true, capsFetch := none }

/-- Metatable carrying the catalog entry of `itemC1`. -/
def metaC1 : Metatable := [(strN "id1", (strN "SGID.BOUNDARIES.Counties", strN "Utah Counties"))]

/-- A catalogued item whose group fetch fails but whose other lookups
succeed. -/
def itemC2a : RItem :=
  { itemid := strN "a1", title := strN "Counties Map", tags := [],
    groupsFetch := none, protectedFlag := true, capsFetch := some (strN "Query,Extract") }

/-- An uncatalogued item with ordinary lookups. -/
def itemC2b : RItem :=
  { itemid := strN "b2", title := strN "Parcels", tags := [strN "SGID"],
    groupsFetch := some [], protectedFlag := false, capsFetch := some (strN "Query") }

/-- Metatable for the `check_items` evaluation: only `itemC2a` is
catalogued. -/
def metaC2 : Metatable := [(strN "a1", (strN "SGID.BOUNDARIES.Counties", strN "Utah Counties"))]

/-- An item whose single tag "utah" is reconciled to "Utah", a whole word of
the title. -/
def itemC3 : RItem :=
  { itemid := strN "idU", title := strN "Utah Counties", tags := [strN "utah"],
    groupsFetch := some [], protectedFlag := true, capsFetch := none }

/-- The end-to-end scenario item of the spec: title "Bicycle Network", tags
["Cycle Net", ".SD", "utah", "water-related"], no catalog entry. -/
def itemC4 : RItem :=
  { itemid := strN "id4", title := strN "Bicycle Network",
    tags := [strN "Cycle Net", strN ".SD", strN "utah", strN "water-related"],
    groupsFetch := some [], protectedFlag := true, capsFetch := none }

/-- An item whose only tag is on the delete list, so reconciliation empties
the tag list. -/
def itemC5 : RItem :=
  { itemid := strN "id5", title := strN "Roads", tags := [strN ".sd"],
    groupsFetch := some [], protectedFlag := true, capsFetch := none }

/-- An item whose tags the reconciler maps to themselves: the round-trip
witness. -/
def itemC3b : RItem :=
  { itemid := strN "w3", title := strN "Highways", tags := [strN "Roads"],
    groupsFetch := some [], protectedFlag := true, capsFetch := none }

/-- An item with distinct itemid and title whose group fetch fails. -/
def itemC9 : RItem :=
  { itemid := strN "abc123", title := strN "My Map", tags := [],
    groupsFetch := none, protectedFlag := true, capsFetch := none }

/-! ## Stability of the tag pipeline on its own output -/

/-- A tag that the per-tag loop of `tags_check` passes through unchanged:
either the literal "Utah" while "Utah" is not a whole word of the title, or a
tag that reaches the final branch (its lowercasing is neither "utah" nor on
the delete list, it does not occur in the title as a whole word nor, for
multi-word tags, as a substring) and is a fixed point of `tag_case`. -/
abbrev keptTag (title : Str) (dels uppercased arts : List Str) (t : Str) : Prop :=
  (t = strN "Utah" ∧ t ∉ pySplit title) ∨
  (strLower t ≠ strN "utah" ∧ strLower t ∉ dels ∧ t ∉ pySplit title ∧
    ¬ ((32 : Nat) ∈ t ∧ isSubstr t title = true) ∧ tag_case t uppercased arts = t)

/-- Conditions under which the category loop leaves the tag list `o`
unchanged for group `g`: whenever the group is a "Utah SGID" group, its
category is already present, the lowercasing of the category is absent, and
the SGID and AGRC tags are present. -/
abbrev categoryStable (o : List Str) (g : Str) : Prop :=
  isSubstr (strN "Utah SGID") g = true →
    (categoryFromGroup g ∈ o ∧ strLower (categoryFromGroup g) ∉ o ∧
     strN "SGID" ∈ o ∧ strN "AGRC" ∈ o)

/-- The per-tag loop maps a duplicate-free list of kept tags to itself
(appended to the accumulator). -/
theorem processTagsLoop_stable (title : Str) (dels uppercased arts : List Str) :
    ∀ (l acc : List Str), (∀ t ∈ l, keptTag title dels uppercased arts t) →
      (∀ t ∈ l, t ∉ acc) → l.Nodup →
      processTagsLoop title dels uppercased arts l acc = acc ++ l := by
  intro l
  induction l with
  | nil => intro acc _ _ _; simp [processTagsLoop]
  | cons t rest ih =>
    intro acc hk hd hn
    have hkt := hk t (List.mem_cons_self t rest)
    have hrestk : ∀ s ∈ rest, keptTag title dels uppercased arts s :=
      fun s hs => hk s (List.mem_cons_of_mem t hs)
    have hrestd : ∀ s ∈ rest, s ∉ acc ++ [t] := by
      intro s hs
      simp only [List.mem_append, List.mem_singleton]
      rintro (hsacc | rfl)
      · exact hd s (List.mem_cons_of_mem t hs) hsacc
      · exact (List.nodup_cons.mp hn).1 hs
    have hrestn : rest.Nodup := (List.nodup_cons.mp hn).2
    rcases hkt with ⟨rfl, hnotin⟩ | ⟨h1, h2, h3, h4, h5⟩
    · simp only [processTagsLoop]
      rw [if_pos ⟨by decide, hnotin⟩]
      rw [ih (acc ++ [strN "Utah"]) hrestk hrestd hrestn]
      simp
    · simp only [processTagsLoop]
      rw [if_neg (fun hcon => h1 hcon.1), if_neg h2,
        if_neg (by rintro (hc | hc); exacts [h3 hc, h4 hc]), h5,
        if_neg (hd t (List.mem_cons_self t rest))]
      rw [ih (acc ++ [t]) hrestk hrestd hrestn]
      simp

/-- The category loop leaves a stable tag list unchanged. -/
theorem addCategoryTagsLoop_stable :
    ∀ (gs acc : List Str), (∀ g ∈ gs, categoryStable acc g) →
      addCategoryTagsLoop gs acc = acc := by
  intro gs
  induction gs with
  | nil => intro acc _; rfl
  | cons g rest ih =>
    intro acc h
    by_cases hg : isSubstr (strN "Utah SGID") g = true
    · have hc := h g (List.mem_cons_self g rest) hg
      simp only [addCategoryTagsLoop]
      rw [if_pos hg, if_neg hc.2.1, if_neg (not_not_intro hc.1),
        if_neg (not_not_intro hc.2.2.1), if_neg (not_not_intro hc.2.2.2)]
      exact ih acc (fun g2 hg2 => h g2 (List.mem_cons_of_mem g hg2))
    · simp only [addCategoryTagsLoop]
      rw [if_neg hg]
      exact ih acc (fun g2 hg2 => h g2 (List.mem_cons_of_mem g hg2))

/-! ## Character-level lemmas for the casing functions -/

theorem lowerChar_upperChar (c : Nat) : lowerChar (upperChar c) = lowerChar c := by
  unfold upperChar lowerChar isLowerChar isUpperChar
  split_ifs <;> simp_all <;> omega

theorem upperChar_upperChar (c : Nat) : upperChar (upperChar c) = upperChar c := by
  unfold upperChar isLowerChar
  split_ifs <;> simp_all <;> omega

theorem lowerChar_lowerChar (c : Nat) : lowerChar (lowerChar c) = lowerChar c := by
  unfold lowerChar isUpperChar
  split_ifs <;> simp_all <;> omega

theorem pyIsAlpha_upperChar (c : Nat) : pyIsAlpha (upperChar c) = pyIsAlpha c := by
  unfold pyIsAlpha upperChar isLowerChar isUpperChar
  split_ifs <;> simp_all <;> omega

theorem pyIsAlpha_lowerChar (c : Nat) : pyIsAlpha (lowerChar c) = pyIsAlpha c := by
  unfold pyIsAlpha lowerChar isLowerChar isUpperChar
  split_ifs <;> simp_all <;> omega

theorem upperChar_ne_dot {c : Nat} (h : c ≠ 46) : upperChar c ≠ 46 := by
  unfold upperChar isLowerChar
  split_ifs <;> simp_all <;> omega

theorem lowerChar_ne_dot {c : Nat} (h : c ≠ 46) : lowerChar c ≠ 46 := by
  unfold lowerChar isUpperChar
  split_ifs <;> simp_all <;> omega

theorem upperChar_not_space {c : Nat} (h : pyIsSpace c = false) :
    pyIsSpace (upperChar c) = false := by
  unfold pyIsSpace at h ⊢
  unfold upperChar isLowerChar
  split_ifs <;> simp_all <;> omega

theorem lowerChar_not_space {c : Nat} (h : pyIsSpace c = false) :
    pyIsSpace (lowerChar c) = false := by
  unfold pyIsSpace at h ⊢
  unfold lowerChar isUpperChar
  split_ifs <;> simp_all <;> omega

/-! ## Word-level lemmas -/

theorem strLower_strUpper (w : Str) : strLower (strUpper w) = strLower w := by
  simp only [strLower, strUpper, List.map_map]
  exact List.map_congr_left (fun c _ => lowerChar_upperChar c)

theorem strUpper_strUpper (w : Str) : strUpper (strUpper w) = strUpper w := by
  simp only [strUpper, List.map_map]
  exact List.map_congr_left (fun c _ => upperChar_upperChar c)

theorem strLower_strLower (w : Str) : strLower (strLower w) = strLower w := by
  simp only [strLower, List.map_map]
  exact List.map_congr_left (fun c _ => lowerChar_lowerChar c)

theorem strLower_pyTitleAux (b : Bool) (w : Str) :
    strLower (pyTitleAux b w) = strLower w := by
  induction w generalizing b with
  | nil => rfl
  | cons c cs ih =>
    simp only [pyTitleAux]
    split
    · cases b <;> simp only [if_true, if_false, Bool.false_eq_true, strLower, List.map_cons] <;>
        rw [← strLower, ← strLower, ih] <;>
        simp [strLower, lowerChar_upperChar, lowerChar_lowerChar]
    · simp only [strLower, List.map_cons]
      rw [← strLower, ← strLower, ih]

theorem pyTitleAux_idem (b : Bool) (w : Str) :
    pyTitleAux b (pyTitleAux b w) = pyTitleAux b w := by
  induction w generalizing b with
  | nil => rfl
  | cons c cs ih =>
    by_cases hc : pyIsAlpha c = true
    · simp only [pyTitleAux, if_pos hc]
      have hd : pyIsAlpha (if b then lowerChar c else upperChar c) = true := by
        cases b
        · simpa [pyIsAlpha_upperChar] using hc
        · simpa [pyIsAlpha_lowerChar] using hc
      simp only [pyTitleAux, if_pos hd, ih]
      cases b <;> simp [upperChar_upperChar, lowerChar_lowerChar]
    · simp only [pyTitleAux, if_neg hc]
      simp only [pyTitleAux, if_neg hc, ih]

theorem pyTitleAux_length (b : Bool) (w : Str) : (pyTitleAux b w).length = w.length := by
  induction w generalizing b with
  | nil => rfl
  | cons c cs ih => simp only [pyTitleAux]; split <;> simp [ih]

theorem pyTitleAux_forall {P : Nat → Prop} (hu : ∀ c, P c → P (upperChar c))
    (hl : ∀ c, P c → P (lowerChar c)) :
    ∀ (b : Bool) (w : Str), (∀ c ∈ w, P c) → ∀ c ∈ pyTitleAux b w, P c := by
  intro b w
  induction w generalizing b with
  | nil => intro _ c hc; simp [pyTitleAux] at hc
  | cons d ds ih =>
    intro h c hc
    simp only [pyTitleAux] at hc
    split at hc
    · rcases List.mem_cons.mp hc with rfl | hc2
      · have hd := h d (List.mem_cons_self d ds)
        split <;> [exact hl d hd; exact hu d hd]
      · exact ih true (fun e he => h e (List.mem_cons_of_mem d he)) c hc2
    · rcases List.mem_cons.mp hc with rfl | hc2
      · exact h c (List.mem_cons_self c ds)
      · exact ih false (fun e he => h e (List.mem_cons_of_mem d he)) c hc2

/-! ## Split and join lemmas -/

theorem splitAux_forall (p : Nat → Bool) :
    ∀ (s acc : Str), (∀ c ∈ acc, p c = false) →
      ∀ w ∈ splitAux p s acc, ∀ c ∈ w, p c = false := by
  intro s
  induction s with
  | nil =>
    intro acc hacc w hw c hc
    simp only [splitAux, List.mem_singleton] at hw
    subst hw
    exact hacc c (List.mem_reverse.mp hc)
  | cons d ds ih =>
    intro acc hacc w hw c hc
    simp only [splitAux] at hw
    by_cases hd : p d = true
    · rw [if_pos hd] at hw
      rcases List.mem_cons.mp hw with rfl | hw2
      · exact hacc c (List.mem_reverse.mp hc)
      · exact ih [] (by simp) w hw2 c hc
    · rw [if_neg hd] at hw
      refine ih (d :: acc) ?_ w hw c hc
      intro e he
      rcases List.mem_cons.mp he with rfl | he2
      · simpa using hd
      · exact hacc e he2

theorem pySplit_forall_not_space (s : Str) :
    ∀ w ∈ pySplit s, ∀ c ∈ w, pyIsSpace c = false := by
  intro w hw
  exact splitAux_forall pyIsSpace s [] (by simp) w (List.mem_of_mem_filter hw)

theorem splitAux_append_no_p (p : Nat → Bool) :
    ∀ (w : Str), (∀ c ∈ w, p c = false) → ∀ (s acc : Str),
      splitAux p (w ++ s) acc = splitAux p s (w.reverse ++ acc) := by
  intro w
  induction w with
  | nil => intro _ s acc; simp
  | cons c cs ih =>
    intro h s acc
    have hc : p c = false := h c (List.mem_cons_self c cs)
    have step : splitAux p ((c :: cs) ++ s) acc = splitAux p (cs ++ s) (c :: acc) := by
      show splitAux p (c :: (cs ++ s)) acc = _
      simp only [splitAux]
      rw [if_neg (by simp [hc])]
    rw [step, ih (fun e he => h e (List.mem_cons_of_mem c he)) s (c :: acc)]
    congr 1
    simp

theorem pySplit_joinWith (ws : List Str)
    (h : ∀ w ∈ ws, w ≠ [] ∧ ∀ c ∈ w, pyIsSpace c = false) :
    pySplit (joinWith [32] ws) = ws := by
  induction ws with
  | nil => rfl
  | cons w ws2 ih =>
    rcases h w (List.mem_cons_self w ws2) with ⟨hne, hnospace⟩
    have hbe : (!w.isEmpty) = true := by simpa [List.isEmpty_iff] using hne
    cases ws2 with
    | nil =>
      show pySplit w = [w]
      unfold pySplit
      have h1 : splitAux pyIsSpace w [] = [w] := by
        have h2 := splitAux_append_no_p pyIsSpace w hnospace [] []
        simp only [List.append_nil] at h2
        rw [h2]
        simp [splitAux]
      rw [h1, List.filter_cons, if_pos hbe]
      rfl
    | cons w2 ws3 =>
      have hjoin : joinWith [32] (w :: w2 :: ws3) =
          w ++ (32 :: joinWith [32] (w2 :: ws3)) := by
        simp [joinWith, List.append_assoc]
      unfold pySplit
      rw [hjoin, splitAux_append_no_p pyIsSpace w hnospace]
      have hstep : splitAux pyIsSpace (32 :: joinWith [32] (w2 :: ws3)) (w.reverse ++ []) =
          (w.reverse ++ []).reverse :: splitAux pyIsSpace (joinWith [32] (w2 :: ws3)) [] := by
        simp only [splitAux]
        rw [if_pos (by decide)]
      rw [hstep]
      simp only [List.append_nil, List.reverse_reverse]
      rw [List.filter_cons, if_pos hbe]
      have ihr := ih (fun v hv => h v (List.mem_cons_of_mem w hv))
      unfold pySplit at ihr
      rw [ihr]

/-! ## Per-word idempotence of the casing -/

theorem removeDots_forall_ne_dot (w : Str) : ∀ c ∈ removeDots w, c ≠ 46 := by
  intro c hc
  have := List.of_mem_filter hc
  simpa using this

theorem removeDots_subset (w : Str) : ∀ c ∈ removeDots w, c ∈ w :=
  fun _ hc => List.mem_of_mem_filter hc

theorem caseWord_forall_ne_dot (uppercased arts : List Str) (w : Str) :
    ∀ c ∈ caseWord uppercased arts w, c ≠ 46 := by
  intro c hc
  simp only [caseWord] at hc
  split_ifs at hc
  · rcases List.mem_map.mp hc with ⟨d, hd, rfl⟩
    exact upperChar_ne_dot (removeDots_forall_ne_dot w d hd)
  · rcases List.mem_map.mp hc with ⟨d, hd, rfl⟩
    exact lowerChar_ne_dot (removeDots_forall_ne_dot w d hd)
  · exact pyTitleAux_forall (P := fun c => c ≠ 46) (fun _ => upperChar_ne_dot)
      (fun _ => lowerChar_ne_dot) false (removeDots w) (removeDots_forall_ne_dot w) c hc

theorem caseWord_forall_not_space (uppercased arts : List Str) (w : Str)
    (h : ∀ c ∈ w, pyIsSpace c = false) :
    ∀ c ∈ caseWord uppercased arts w, pyIsSpace c = false := by
  have hclean : ∀ c ∈ removeDots w, pyIsSpace c = false :=
    fun c hc => h c (removeDots_subset w c hc)
  intro c hc
  simp only [caseWord] at hc
  split_ifs at hc
  · rcases List.mem_map.mp hc with ⟨d, hd, rfl⟩
    exact upperChar_not_space (hclean d hd)
  · rcases List.mem_map.mp hc with ⟨d, hd, rfl⟩
    exact lowerChar_not_space (hclean d hd)
  · exact pyTitleAux_forall (P := fun c => pyIsSpace c = false)
      (fun _ => upperChar_not_space) (fun _ => lowerChar_not_space)
      false (removeDots w) hclean c hc

theorem caseWord_ne_nil (uppercased arts : List Str) (w : Str)
    (h : removeDots w ≠ []) : caseWord uppercased arts w ≠ [] := by
  simp only [caseWord]
  split_ifs
  · simpa [strUpper, List.map_eq_nil_iff] using h
  · simpa [strLower, List.map_eq_nil_iff] using h
  · intro hcon
    apply h
    have hlen := pyTitleAux_length false (removeDots w)
    unfold pyTitle at hcon
    rw [hcon] at hlen
    exact List.eq_nil_of_length_eq_zero hlen.symm

theorem removeDots_caseWord (uppercased arts : List Str) (w : Str) :
    removeDots (caseWord uppercased arts w) = caseWord uppercased arts w := by
  apply List.filter_eq_self.mpr
  intro c hc
  simpa using caseWord_forall_ne_dot uppercased arts w c hc

theorem caseWord_apply (uppercased arts : List Str) (u : Str)
    (hd : removeDots u = u) :
    caseWord uppercased arts u =
      if strLower u ∈ uppercased then strUpper u
      else if strLower u ∈ arts then strLower u
      else pyTitle u := by
  simp only [caseWord, hd]

theorem caseWord_idem (uppercased arts : List Str) (w : Str) :
    caseWord uppercased arts (caseWord uppercased arts w) =
      caseWord uppercased arts w := by
  have happly := caseWord_apply uppercased arts (caseWord uppercased arts w)
    (removeDots_caseWord uppercased arts w)
  by_cases h1 : strLower (removeDots w) ∈ uppercased
  · have hw : caseWord uppercased arts w = strUpper (removeDots w) := by
      simp only [caseWord]; rw [if_pos h1]
    rw [happly, hw, strLower_strUpper, if_pos h1, strUpper_strUpper]
  · by_cases h2 : strLower (removeDots w) ∈ arts
    · have hw : caseWord uppercased arts w = strLower (removeDots w) := by
        simp only [caseWord]; rw [if_neg h1, if_pos h2]
      rw [happly, hw, strLower_strLower, if_neg h1, if_pos h2]
    · have hw : caseWord uppercased arts w = pyTitle (removeDots w) := by
        simp only [caseWord]; rw [if_neg h1, if_neg h2]
      rw [happly, hw]
      unfold pyTitle
      rw [strLower_pyTitleAux, if_neg h1, if_neg h2, pyTitleAux_idem]

/-! ## Claim theorems -/

/-- C1: the claim states that when the group-membership fetch fails,
`groups_check` reports the fixed non-fixable sentinel ("Error" with no fix)
instead of comparing against the desired "Utah SGID {Category}" group.  The
code does the opposite: the sentinel guard at checks.py line 215 compares the
list `["Error"]` against the string "Error", which is always false in Python,
so the comparison proceeds with `["Error"]` as the current groups and yields
a fixable result.  Evaluating `groups_check` at a catalogued item whose fetch
failed exhibits the divergence. -/
theorem groups_check_failure_yields_fixable_result :
    groups_check itemC1 metaC1 =
      { fix_groups := true, old_groups := PyVal.list [strN "Error"],
        new_group := strN "Utah SGID Boundaries" } := by decide

/-- C2: the check phase is total and emits exactly one report row per
enumerated item (first conjunct), and the error handling maps a failed
capability fetch to a no-fix state; but a failed group fetch on a catalogued
item is not mapped to a non-fixable sentinel: the row of `itemC2a` records
old group "Error" and a desired new group, while the groups Y/N flag lands in
the `fix_tags` column (validate.py line 158) and `fix_groups` stays unset.
The second conjunct evaluates the check phase on a two-item run, one item per
failure profile, and exhibits both the per-item completion and the divergence
from the claimed sentinel mapping. -/
theorem check_items_total_rows_and_group_failure_flows_into_comparison :
    (∀ (items : List (RItem × Option Str)) (metatable : Metatable),
      (check_items items metatable).length = items.length) ∧
    check_items [(itemC2a, some (strN "Boundaries")), (itemC2b, none)] metaC2 =
      [(strN "a1",
        { fix_title := some (PyVal.str (strN "Y")),
          old_title := some (PyVal.str (strN "Counties Map")),
          new_title := some (PyVal.str (strN "Utah Counties")),
          fix_groups := none,
          old_groups := some (PyVal.str (strN "Error")),
          new_group := some (PyVal.str (strN "Utah SGID Boundaries")),
          fix_folder := some (PyVal.str (strN "N")),
          old_folder := some (PyVal.str []),
          new_folder := some (PyVal.str []),
          fix_tags := some (PyVal.str (strN "N")),
          old_tags := some (PyVal.str []),
          new_tags := some (PyVal.str []),
          fix_downloads := some (PyVal.str (strN "N")),
          fix_delete_protection := some (PyVal.str (strN "N")) }),
       (strN "b2",
        { fix_title := none, old_title := none, new_title := none,
          fix_groups := none, old_groups := none, new_group := none,
          fix_folder := none, old_folder := none, new_folder := none,
          fix_tags := some (PyVal.str (strN "N")),
          old_tags := some (PyVal.str []),
          new_tags := some (PyVal.str []),
          fix_downloads := some (PyVal.str (strN "Y")),
          fix_delete_protection := some (PyVal.str (strN "Y")) })] :=
  ⟨fun items _ => by simp [check_items], by decide⟩

/-- C3 counterexample: running the reconciler a second time on its own output
is not always change-free.  The tag "utah" of `itemC3` is kept as the literal
"Utah" on the first pass (it is not a whole word of the title, which contains
"Utah" capitalized); on the second pass the literal "Utah" is a whole word of
the title "Utah Counties", so the in-title rule drops it and the second pass
reports a change again. -/
theorem tags_check_second_pass_changed_example :
    reconciled_tags itemC3 tags_to_delete uppercased_tags articles none = [strN "Utah"] ∧
    (tags_check { itemC3 with tags := [strN "Utah"] }
        tags_to_delete uppercased_tags articles none).fix_tags = true := by decide

/-- C3 amended: re-running the reconciler on its own output (same title,
delete list, casing lists and groups) yields no change, provided the first
pass output is stable under the per-tag filters: its tags are pairwise
distinct and whitespace-trimmed, each is either the literal "Utah" (with
"Utah" not a word of the title) or a `tag_case` fixed point that does not
lowercase to "utah" or to a deleted tag and does not occur in the title, and
each "Utah SGID" group finds its category present (with the lowercased
category absent) along with the SGID and AGRC tags.  The counterexample shows
the proviso is necessary: a reconciled tag may land in the title and be
dropped by the second pass. -/
theorem tags_check_roundtrip (item : RItem) (dels uppercased arts : List Str)
    (hnd : (reconciled_tags item dels uppercased arts none).Nodup)
    (hstrip : ∀ t ∈ reconciled_tags item dels uppercased arts none, pyStrip t = t)
    (hkept : ∀ t ∈ reconciled_tags item dels uppercased arts none,
      keptTag item.title dels uppercased arts t)
    (hcat : ∀ g ∈ item.groupsFetch.getD [],
      categoryStable (reconciled_tags item dels uppercased arts none) g) :
    (tags_check { item with tags := reconciled_tags item dels uppercased arts none }
        dels uppercased arts none).fix_tags = false := by
  set o := reconciled_tags item dels uppercased arts none with ho
  have hmap : o.map pyStrip = o := by
    conv_rhs => rw [← List.map_id o]
    exact List.map_congr_left hstrip
  have hrec : reconciled_tags { item with tags := o } dels uppercased arts none = o := by
    unfold reconciled_tags tagsCheckTitle
    dsimp only
    rw [hmap]
    rw [processTagsLoop_stable item.title dels uppercased arts o [] hkept (by simp) hnd]
    simp only [List.nil_append]
    exact addCategoryTagsLoop_stable _ o hcat
  unfold tags_check tags_check_full
  dsimp only
  rw [hrec]
  rw [if_neg (by simp)]

/-- C3 witness: the round trip at a concrete stable item. -/
theorem tags_check_roundtrip_witness :
    (tags_check { itemC3b with
        tags := reconciled_tags itemC3b tags_to_delete uppercased_tags articles none }
      tags_to_delete uppercased_tags articles none).fix_tags = false :=
  tags_check_roundtrip itemC3b tags_to_delete uppercased_tags articles
    (by decide) (by decide) (by decide) (by decide)

/-- C4 counterexample: on the spec scenario (title "Bicycle Network", tags
["Cycle Net", ".SD", "utah", "water-related"], no catalog entry, no groups)
the reconciler KEEPS "Cycle Net": the substring test of checks.py line 82 is
case-sensitive and "Cycle Net" does not occur in "Bicycle Network" (the code
comment at lines 68-72 chooses this behaviour deliberately).  The output is
["Cycle Net", "Utah", "Water-Related"], not the claimed
["Utah", "Water-Related"]. -/
theorem bicycle_scenario_keeps_cycle_net :
    reconciled_tags itemC4 tags_to_delete uppercased_tags articles none =
      [strN "Cycle Net", strN "Utah", strN "Water-Related"] ∧
    reconciled_tags itemC4 tags_to_delete uppercased_tags articles none ≠
      [strN "Utah", strN "Water-Related"] ∧
    strN "Cycle Net" ∈ reconciled_tags itemC4 tags_to_delete uppercased_tags articles none := by
  decide

/-- C4 amended: on the spec scenario the reconciler drops ".SD" (delete
list), keeps "Cycle Net" (the case-sensitive substring check does not match
the title), keeps the literal "Utah" and produces "Water-Related"; for every
group-membership outcome the output is ["Cycle Net", "Utah", "Water-Related"]
plus the category tags derived from the groups. -/
theorem bicycle_scenario_output (gf : Option (List Str)) :
    reconciled_tags { itemC4 with groupsFetch := gf }
        tags_to_delete uppercased_tags articles none =
      addCategoryTagsLoop (gf.getD [])
        [strN "Cycle Net", strN "Utah", strN "Water-Related"] := rfl

/-- C5 counterexample: a result with needsFix true need not carry a populated
new value.  For an item whose only tag is on the delete list, `tags_check`
reports a fix with the new tag list empty. -/
theorem tags_check_fix_with_empty_new_value :
    (tags_check itemC5 tags_to_delete uppercased_tags articles none).fix_tags = true ∧
    (tags_check itemC5 tags_to_delete uppercased_tags articles none).new_tags = PyVal.list [] ∧
    PyVal.isEmptyVal
      (tags_check itemC5 tags_to_delete uppercased_tags articles none).new_tags = true := by
  decide

/-- C5 amended: a result with needsFix false always carries empty old and new
values (for the four checkers that carry value fields; the downloads and
delete-protection checkers return only a flag), but needsFix true does not
guarantee both values are populated — see the counterexample with an empty
new tag list. -/
theorem no_fix_results_carry_empty_values (item : RItem) (metatable : Metatable)
    (folders : FolderMap) (dels uppercased arts : List Str) (new_title : Option Str) :
    ((title_check item metatable).fix_title = false →
      (title_check item metatable).old_title = [] ∧
      (title_check item metatable).new_title = []) ∧
    ((groups_check item metatable).fix_groups = false →
      (groups_check item metatable).old_groups = PyVal.str [] ∧
      (groups_check item metatable).new_group = []) ∧
    (∀ fd, folder_check item metatable folders = some fd → fd.fix_folder = false →
      fd.old_folder = PyVal.str [] ∧ fd.new_folder = []) ∧
    ((tags_check item dels uppercased arts new_title).fix_tags = false →
      (tags_check item dels uppercased arts new_title).old_tags = PyVal.str [] ∧
      (tags_check item dels uppercased arts new_title).new_tags = PyVal.str []) := by
  refine ⟨?_, ?_, ?_, ?_⟩
  · unfold title_check
    rcases lookupMeta metatable item.itemid with _ | ⟨_, t⟩ <;> dsimp only <;> [simp; split] <;>
      simp
  · unfold groups_check
    simp only [pyEqListStr, if_false, Bool.false_eq_true]
    rcases lookupMeta metatable item.itemid with _ | ⟨s, _⟩ <;> dsimp only <;> [simp; split] <;>
      simp
  · intro fd hfd
    unfold folder_check at hfd
    rcases h1 : lookupFolder folders item.itemid with _ | cf
    · rw [h1] at hfd; exact absurd hfd (by simp)
    · rw [h1] at hfd
      rcases h2 : lookupMeta metatable item.itemid with _ | ⟨s, a⟩ <;>
        simp only [h2, Option.some_inj] at hfd <;> subst hfd
      · simp
      · split <;> simp
  · unfold tags_check tags_check_full
    dsimp only
    split <;> simp

/-- C5 witness: the amended statement applied at a concrete uncatalogued item
with matching tags, where all four checkers report no fix and all value
fields are empty. -/
theorem no_fix_results_carry_empty_values_witness :
    (title_check itemC2b metaC2).old_title = [] ∧
    (groups_check itemC2b metaC2).old_groups = PyVal.str [] ∧
    (tags_check itemC2b tags_to_delete uppercased_tags articles none).new_tags = PyVal.str [] := by
  have h := no_fix_results_carry_empty_values itemC2b metaC2 []
    tags_to_delete uppercased_tags articles none
  exact ⟨(h.1 (by decide)).1, (h.2.1 (by decide)).1, (h.2.2.2 (by decide)).2⟩

/-- C6: for an item absent from the metatable, none of the three
catalog-driven checkers reports a fix: `title_check`, `groups_check` and
`folder_check` all return needsFix false whatever the current title, groups
and folder are; and the report row of `check_items` still carries the tag,
downloads and delete-protection results for that item (with the values of
the respective checks), while the title, group and folder cells stay
unset. -/
theorem uncatalogued_item_checks (item : RItem) (metatable : Metatable)
    (folders : FolderMap) (current_folder : Option Str)
    (h : lookupMeta metatable item.itemid = none) :
    (title_check item metatable).fix_title = false ∧
    (groups_check item metatable).fix_groups = false ∧
    (∀ fd, folder_check item metatable folders = some fd → fd.fix_folder = false) ∧
    (check_row item current_folder metatable).fix_title = none ∧
    (check_row item current_folder metatable).old_groups = none ∧
    (check_row item current_folder metatable).fix_folder = none ∧
    (check_row item current_folder metatable).fix_tags =
      some (PyVal.str
        (if (tags_check item tags_to_delete uppercased_tags articles none).fix_tags = true
          then yStr else nStr)) ∧
    (check_row item current_folder metatable).fix_downloads =
      some (PyVal.str (if downloads_check item = true then yStr else nStr)) ∧
    (check_row item current_folder metatable).fix_delete_protection =
      some (PyVal.str (if delete_protection_check item = true then yStr else nStr)) := by
  have hrow : check_row item current_folder metatable =
      { fix_tags := some (PyVal.str
          (if pySorted (check_tags item tags_to_delete uppercased_tags articles) ≠
              pySorted item.tags then yStr else nStr)),
        old_tags := some (PyVal.str
          (if pySorted (check_tags item tags_to_delete uppercased_tags articles) ≠
              pySorted item.tags then joinWith (strN "; ") item.tags else [])),
        new_tags := some (PyVal.str
          (if pySorted (check_tags item tags_to_delete uppercased_tags articles) ≠
              pySorted item.tags
            then joinWith (strN "; ")
              (check_tags item tags_to_delete uppercased_tags articles) else [])),
        fix_downloads := some (PyVal.str
          (match item.capsFetch with
           | some caps => if isSubstr (strN "Extract") caps = false then yStr else nStr
           | none => nStr)),
        fix_delete_protection :=
          some (PyVal.str (if ¬ item.protectedFlag then yStr else nStr)) } := by
    unfold check_row get_category_and_name
    rw [h]
    simp
    refine ⟨?_, ?_, ?_⟩ <;> split <;> rfl
  refine ⟨?_, ?_, ?_, ?_, ?_, ?_, ?_, ?_, ?_⟩
  · unfold title_check; rw [h]
  · unfold groups_check
    simp only [pyEqListStr, if_false, Bool.false_eq_true]
    rw [h]
  · intro fd hfd
    unfold folder_check at hfd
    rcases h1 : lookupFolder folders item.itemid with _ | cf
    · rw [h1] at hfd; exact absurd hfd (by simp)
    · rw [h1] at hfd
      simp only [h, Option.some_inj] at hfd
      subst hfd
      rfl
  · rw [hrow]
  · rw [hrow]
  · rw [hrow]
  · rw [hrow]
    unfold tags_check tags_check_full check_tags
    dsimp only
    split <;> rename_i hcond <;> simp [reconciled_tags] at hcond ⊢
  · rw [hrow]
    unfold downloads_check
    rcases item.capsFetch with _ | caps <;> dsimp only <;> split <;> simp_all
  · rw [hrow]
    unfold delete_protection_check
    split <;> simp_all

/-- C6 witness: the guarantees at the concrete uncatalogued item `itemC2b`. -/
theorem uncatalogued_item_checks_witness :
    (title_check itemC2b metaC2).fix_title = false ∧
    (groups_check itemC2b metaC2).fix_groups = false ∧
    (check_row itemC2b none metaC2).fix_title = none ∧
    (check_row itemC2b none metaC2).fix_downloads =
      some (PyVal.str (if downloads_check itemC2b = true then yStr else nStr)) := by
  have h := uncatalogued_item_checks itemC2b metaC2 [] none (by decide)
  exact ⟨h.1, h.2.1, h.2.2.2.1, h.2.2.2.2.2.2.2.1⟩

/-- C7 counterexample: `tag_case` is not idempotent on every tag.  A word
consisting only of periods is cleaned to the empty word, which the join turns
into doubled or leading spaces, and a second pass collapses them: for the tag
". a" the first pass yields " a" and the second pass "a". -/
theorem tag_case_not_idempotent_example :
    tag_case (tag_case (strN ". a") uppercased_tags articles) uppercased_tags articles ≠
      tag_case (strN ". a") uppercased_tags articles := by decide

/-- C7 amended: `tag_case` with the fixed word lists is idempotent on every
tag in which each whitespace-separated word keeps at least one character
after period stripping; the counterexample shows the proviso is necessary
(a word of periods collapses to an empty word, and the join and re-split
around it differ). -/
theorem tag_case_idempotent_on_solid_words (t : Str)
    (h : ∀ w ∈ pySplit t, removeDots w ≠ []) :
    tag_case (tag_case t uppercased_tags articles) uppercased_tags articles =
      tag_case t uppercased_tags articles := by
  unfold tag_case
  have hprops : ∀ u ∈ (pySplit t).map (caseWord uppercased_tags articles),
      u ≠ [] ∧ ∀ c ∈ u, pyIsSpace c = false := by
    intro u hu
    rcases List.mem_map.mp hu with ⟨w, hw, rfl⟩
    exact ⟨caseWord_ne_nil _ _ _ (h w hw),
      caseWord_forall_not_space _ _ _ (pySplit_forall_not_space t w hw)⟩
  rw [pySplit_joinWith ((pySplit t).map (caseWord uppercased_tags articles)) hprops]
  congr 1
  rw [List.map_map]
  exact List.map_congr_left (fun w _ => caseWord_idem uppercased_tags articles w)

/-- C7 witness: idempotence at the concrete tag "U.S. bureau Of
Geoinformation", whose words all survive period stripping. -/
theorem tag_case_idempotent_on_solid_words_witness :
    tag_case (tag_case (strN "U.S. bureau Of Geoinformation") uppercased_tags articles)
        uppercased_tags articles =
      tag_case (strN "U.S. bureau Of Geoinformation") uppercased_tags articles :=
  tag_case_idempotent_on_solid_words (strN "U.S. bureau Of Geoinformation") (by decide)

/-- C8: the concrete normalization examples of the spec, evaluated on the
fixed word lists of validate.py: "agrc" is uppercased wholesale,
"Plss Fabric" uppercases the acronym and title-cases the rest,
"water-related" capitalizes after the hyphen, and
"U.S. bureau Of Geoinformation" strips periods, uppercases "US" and
lowercases the article "of". -/
theorem tag_case_spec_examples :
    tag_case (strN "agrc") uppercased_tags articles = strN "AGRC" ∧
    tag_case (strN "Plss Fabric") uppercased_tags articles = strN "PLSS Fabric" ∧
    tag_case (strN "water-related") uppercased_tags articles = strN "Water-Related" ∧
    tag_case (strN "U.S. bureau Of Geoinformation") uppercased_tags articles =
      strN "US Bureau of Geoinformation" := by decide

/-- C9 counterexample: on a failed group fetch the side list records the item
TITLE, not the item identifier: for an item with itemid "abc123" and title
"My Map" the list is ["My Map"] and does not contain the identifier. -/
theorem failed_group_list_records_title_not_itemid :
    (tags_check_full itemC9 tags_to_delete uppercased_tags articles none).2 = [strN "My Map"] ∧
    strN "abc123" ∉ (tags_check_full itemC9 tags_to_delete uppercased_tags articles none).2 ∧
    itemC9.itemid = strN "abc123" := by decide

/-- C9 amended: whenever the group-membership fetch fails during tag
reconciliation, `tags_check` records the item TITLE in the (local, discarded)
side list of failed-group items, and its returned result is the one obtained
by treating the group list as empty; the embedding is a total function, so no
exception escapes. -/
theorem tags_check_group_failure_behaviour (item : RItem)
    (dels uppercased arts : List Str) (new_title : Option Str)
    (h : item.groupsFetch = none) :
    (tags_check_full item dels uppercased arts new_title).2 = [item.title] ∧
    tags_check item dels uppercased arts new_title =
      tags_check { item with groupsFetch := some [] } dels uppercased arts new_title := by
  refine ⟨by simp [tags_check_full, h], ?_⟩
  simp [tags_check, tags_check_full, reconciled_tags, tagsCheckTitle, h]

/-- C9 witness: the amended behaviour at a concrete item. -/
theorem tags_check_group_failure_behaviour_witness :
    (tags_check_full itemC1 tags_to_delete uppercased_tags articles none).2 =
      [itemC1.title] ∧
    tags_check itemC1 tags_to_delete uppercased_tags articles none =
      tags_check { itemC1 with groupsFetch := some [] }
        tags_to_delete uppercased_tags articles none :=
  tags_check_group_failure_behaviour itemC1 tags_to_delete uppercased_tags articles none rfl

/-- C10: the fix-phase lookup `self.feature_service_items[itemid]` subscripts
the positional in-memory item list with the report-row key, a string, which
Python rejects with a TypeError for every item list and every key, so it
never returns the item whose identifier equals that key (nor any other
item). -/
theorem fix_items_lookup_never_returns_an_item (items : List RItem) (itemid : Str) :
    fix_items_item_lookup items itemid = Except.error listStrIndexTypeError := rfl

end Agol
